import Mathlib

/-!
Verification development for the Accessories sales dashboard backend
(`src/app_enhanced.py`).  The reimplementable core — column normalization,
dataset loading, equality filtering, totals aggregation and spreadsheet
export — is shallowly embedded below.  DataFrames are modeled as a header
list plus positional rows of Python-like values; fallible pandas operations
(column access on a missing column, `float()` of a non-numeric sum) are
modeled with `Except`.

Modeling conventions:
* Python numeric values (ints and floats) are modeled as `Int`, tagged with
  the Python runtime type via the `PyVal.int` / `PyVal.float` constructors.
  Every numeric value exercised by the specification's claims is integral,
  so float rounding behavior is outside the model; `int()` applied to an
  integral sum is the identity, and `float()` only re-tags the value.
* Python `str.strip` is modeled over the char list, removing the ASCII
  whitespace characters recognized by `Char.isWhitespace`.
* `pd.to_numeric(errors="coerce")` is modeled for numeric cells and for
  plain optionally-signed integer strings; other strings coerce to `NaN`
  and are then filled with 0 by `fillna(0)`, exactly as in the source.
-/

deriving instance DecidableEq for Except

/-- Python runtime value living in a DataFrame cell: a string, an int, or a
float (float values modeled as integers, see the header comment). -/
inductive PyVal where
  | str (s : String)
  | int (n : Int)
  | float (n : Int)
deriving DecidableEq

/-- Python `str()` of a value: strings unchanged, ints in decimal, floats in
decimal with a trailing `.0` (the rendering of integral Python floats). -/
def pyStr : PyVal → String
  | .str s => s
  | .int n => toString n
  | .float n => toString n ++ (".0")

/-- Drop leading and trailing whitespace characters of a char list, the core
of Python `str.strip()`. -/
def stripChars (l : List Char) : List Char :=
  ((l.dropWhile Char.isWhitespace).reverse.dropWhile Char.isWhitespace).reverse

/-- Python `str.strip()` with no arguments. -/
def pyStrip (s : String) : String :=
  String.mk (stripChars s.data)

/-- Numeric content of a cell, if any: used to model pandas column sums,
which fail (`ValueError` via `float()`) on genuinely non-numeric data. -/
def cellNum : PyVal → Option Int
  | .str _ => none
  | .int n => some n
  | .float n => some n

/-- Map a fallible function over a list inside `Option`, failing if any
element fails. -/
def optionMapList (f : α → Option β) : List α → Option (List β)
  | [] => some []
  | x :: xs =>
    match f x, optionMapList f xs with
    | some y, some ys => some (y :: ys)
    | _, _ => none

/-- Map a fallible function over a list inside `Except`, failing on the
first element that fails. -/
def exceptMap (f : α → Except ε β) : List α → Except ε (List β)
  | [] => .ok []
  | x :: xs => Except.bind (f x) (fun y => Except.bind (exceptMap f xs) (fun ys => .ok (y :: ys)))

/-- First index of a column name in a header list, pandas column lookup. -/
def idxOf? (c : String) : List String → Option Nat
  | [] => none
  | x :: xs => if x = c then some 0 else (idxOf? c xs).map (fun i => i + 1)

/-- The canonical column-name table `CANON_COLS` (an identity mapping). -/
def CANON_COLS : List (String × String) :=
  [ ("Fiscal Quarter", "Fiscal Quarter"),
    ("Fiscal Month", "Fiscal Month"),
    ("Location", "Location"),
    ("Model Group", "Model Group"),
    ("No of Billied Ros", "No of Billied Ros"),
    ("Acc Sale throughROs (GNDP)In Rs", "Acc Sale throughROs (GNDP)In Rs"),
    ("Acc Sale throughROs (MRP) In Rs", "Acc Sale throughROs (MRP) In Rs"),
    ("No of Counter ROs", "No of Counter ROs"),
    ("Acc Sale throughCounter (GNDP) In Rs", "Acc Sale throughCounter (GNDP) In Rs"),
    ("Acc Sale throughCounter (MRP) In Rs", "Acc Sale throughCounter (MRP) In Rs"),
    ("Acc Revenue (GNDP) / RO", "Acc Revenue (GNDP) / RO"),
    ("Acc Revenue (MRP) / RO", "Acc Revenue (MRP) / RO") ]

/-- The eight numeric columns, in their canonical order (`NUMERIC_COLS`). -/
def NUMERIC_COLS : List String :=
  [ "No of Billied Ros",
    "Acc Sale throughROs (GNDP)In Rs",
    "Acc Sale throughROs (MRP) In Rs",
    "No of Counter ROs",
    "Acc Sale throughCounter (GNDP) In Rs",
    "Acc Sale throughCounter (MRP) In Rs",
    "Acc Revenue (GNDP) / RO",
    "Acc Revenue (MRP) / RO" ]

/-- The four required categorical columns checked by `load_excel`. -/
def REQUIRED_COLS : List String :=
  ["Fiscal Quarter", "Fiscal Month", "Location", "Model Group"]

/-- `INDIAN_FINANCIAL_MONTHS`: the April-starting financial-year order. -/
def INDIAN_FINANCIAL_MONTHS : List String :=
  ["Apr", "May", "Jun", "Jul", "Aug", "Sep", "Oct", "Nov", "Dec", "Jan", "Feb", "Mar"]

/-- Replace tab characters with spaces, Python `str.replace("\t", " ")`
restricted to the single-character pattern used by the source. -/
def tabToSpace (c : Char) : Char :=
  if c = '\t' then ' ' else c

/-- Split a char list on whitespace runs, dropping empty pieces: Python
`str.split()` with no separator.  The accumulator holds the current word
reversed. -/
def splitWsAux : List Char → List Char → List (List Char)
  | [], acc => if acc.isEmpty then [] else [acc.reverse]
  | c :: cs, acc =>
    if c.isWhitespace then
      (if acc.isEmpty then splitWsAux cs [] else acc.reverse :: splitWsAux cs [])
    else splitWsAux cs (c :: acc)

/-- `_clean_col_name`: replace tabs by spaces, strip, split on whitespace
runs and re-join with single spaces. -/
def clean_col_name (c : String) : String :=
  String.intercalate (" ") ((splitWsAux (stripChars (c.data.map tabToSpace)) []).map String.mk)

/-- Rename a cleaned header through `CANON_COLS` when it appears there
(the rename map built in `load_excel`). -/
def renameCanon (c : String) : String :=
  match CANON_COLS.lookup c with
  | some v => v
  | none => c

/-- Sort key of a month label: its index in `INDIAN_FINANCIAL_MONTHS`, or
999 for labels outside the known sequence. -/
def monthRank (x : String) : Nat :=
  if INDIAN_FINANCIAL_MONTHS.contains x then List.indexOf x INDIAN_FINANCIAL_MONTHS else 999

/-- Lexicographic code-point comparison of char lists, Python's `<=` on
strings. -/
def charsLe : List Char → List Char → Bool
  | [], _ => true
  | _ :: _, [] => false
  | a :: as, b :: bs => if a.toNat = b.toNat then charsLe as bs else decide (a.toNat < b.toNat)

/-- Python string ordering as a proposition, for use with `insertionSort`. -/
def pyStrLe (a b : String) : Prop :=
  charsLe a.data b.data = true

instance : DecidableRel pyStrLe :=
  fun a b => inferInstanceAs (Decidable (charsLe a.data b.data = true))

/-- Month comparison by `monthRank`, the sort key used for month options. -/
def monthLe (a b : String) : Prop :=
  monthRank a ≤ monthRank b

instance : DecidableRel monthLe :=
  fun a b => inferInstanceAs (Decidable (monthRank a ≤ monthRank b))

/-- Python `sorted` on strings: a stable sort by code-point order. -/
def pySortStr (l : List String) : List String :=
  List.insertionSort pyStrLe l

/-- Python `sorted(key=monthRank)`: a stable sort by financial-month rank. -/
def pySortMonths (l : List String) : List String :=
  List.insertionSort monthLe l

/-- First-occurrence deduplication (pandas `Series.unique`), with the list
of already-seen values as an accumulator. -/
def uniqueFirstAux (seen : List String) : List String → List String
  | [] => []
  | x :: xs => if x ∈ seen then uniqueFirstAux seen xs else x :: uniqueFirstAux (x :: seen) xs

/-- First-occurrence deduplication of a value list. -/
def uniqueFirst (l : List String) : List String :=
  uniqueFirstAux [] l

/-- In-memory DataFrame: header list plus positional rows. -/
structure Df where
  cols : List String
  rows : List (List PyVal)
deriving DecidableEq

/-- pandas `DataFrame.empty`: true when either axis has length zero. -/
def Df.pdEmpty (df : Df) : Bool :=
  df.rows.isEmpty || df.cols.isEmpty

/-- Cell of a row under a named column (first matching header), with the
pandas behavior of a default only for malformed rows. -/
def colCell (cols : List String) (row : List PyVal) (c : String) : PyVal :=
  match idxOf? c cols with
  | some i => row.getD i (PyVal.str (""))
  | none => PyVal.str ("")

/-- String renderings of one column of a DataFrame (`astype(str)`). -/
def colStr (df : Df) (c : String) : List String :=
  df.rows.map (fun r => pyStr (colCell df.cols r c))

/-- The `POST` request body: four optional criteria strings, blank by
default (`FilterRequest`). -/
structure FilterRequest where
  quarter : String := ""
  month : String := ""
  location : String := ""
  model : String := ""
deriving DecidableEq

/-- One masking step `f = f[f[col].astype(str) == value]`, raising
`KeyError` when the column is absent. -/
def filterStep (f : Df) (col : String) (v : String) : Except String Df :=
  match idxOf? col f.cols with
  | some i => .ok { cols := f.cols, rows := f.rows.filter (fun r => pyStr (r.getD i (PyVal.str (""))) == v) }
  | none => .error ("KeyError: " ++ col)

/-- One guarded filter statement of `apply_filter`: filter only when the
stripped criterion is non-blank (`if req.x and req.x.strip():`). -/
def guardStep (f : Df) (col : String) (g : String) : Except String Df :=
  if g ≠ "" then filterStep f col g else .ok f

/-- `apply_filter`: the four guarded equality filters applied in sequence
(quarter, month, location, model), each comparing the column rendered with
`astype(str)` against the stripped criterion. -/
def apply_filter (df : Df) (req : FilterRequest) : Except String Df :=
  Except.bind (guardStep df ("Fiscal Quarter") (pyStrip req.quarter)) (fun f1 =>
  Except.bind (guardStep f1 ("Fiscal Month") (pyStrip req.month)) (fun f2 =>
  Except.bind (guardStep f2 ("Location") (pyStrip req.location)) (fun f3 =>
  guardStep f3 ("Model Group") (pyStrip req.model))))

/-- Sum of a named column (`_df[c].sum()` wrapped in `float`/`int`):
`KeyError` if the column is absent, `ValueError` if a value is
non-numeric. -/
def colSumE (df : Df) (c : String) : Except String Int :=
  match idxOf? c df.cols with
  | none => .error ("KeyError: " ++ c)
  | some i =>
    match optionMapList (fun r => cellNum (r.getD i (PyVal.str ("")))) df.rows with
    | none => .error ("ValueError: non-numeric values in column " ++ c)
    | some xs => .ok xs.sum

/-- First loop of `compute_totals`: `totals[c] = float(_df[c].sum()) if c in
_df.columns else 0.0`. -/
def totalsEntry (df : Df) (c : String) : Except String (String × PyVal) :=
  if df.cols.contains c then (colSumE df c).map (fun s => (c, PyVal.float s))
  else .ok (c, PyVal.float 0)

/-- Count-column override of `compute_totals`: `int(_df[c].sum()) if c in
_df.columns else 0` (on integral sums `int()` is the identity). -/
def countEntry (df : Df) (c : String) : Except String PyVal :=
  if df.cols.contains c then (colSumE df c).map (fun s => PyVal.int s)
  else .ok (PyVal.int 0)

/-- `compute_totals`: totals over the eight numeric columns in canonical
order, with the two count columns re-assigned as ints (a Python dict
assignment keeps the key's original position). -/
def compute_totals (df : Df) : Except String (List (String × PyVal)) :=
  Except.bind (exceptMap (totalsEntry df) NUMERIC_COLS) (fun base =>
  Except.bind (countEntry df ("No of Billied Ros")) (fun billed =>
  Except.bind (countEntry df ("No of Counter ROs")) (fun counter =>
    .ok (base.map (fun p =>
      if p.1 = "No of Billied Ros" then (p.1, billed)
      else if p.1 = "No of Counter ROs" then (p.1, counter)
      else p)))))

/-- The all-zero totals mapping: every numeric column present, the two count
columns as int 0 and the six currency columns as float 0.0. -/
def ZERO_TOTALS : List (String × PyVal) :=
  [ ("No of Billied Ros", PyVal.int 0),
    ("Acc Sale throughROs (GNDP)In Rs", PyVal.float 0),
    ("Acc Sale throughROs (MRP) In Rs", PyVal.float 0),
    ("No of Counter ROs", PyVal.int 0),
    ("Acc Sale throughCounter (GNDP) In Rs", PyVal.float 0),
    ("Acc Sale throughCounter (MRP) In Rs", PyVal.float 0),
    ("Acc Revenue (GNDP) / RO", PyVal.float 0),
    ("Acc Revenue (MRP) / RO", PyVal.float 0) ]

/-- Raw tabular source file as handed over by the spreadsheet reader:
header strings and positional cell values, `none` modeling a missing cell
(pandas `NaN`). -/
structure RawFile where
  headers : List String
  rows : List (List (Option PyVal))
deriving DecidableEq

/-- Process-wide state built at startup: the DataFrame and the four
dropdown option lists (module globals `df`, `quarters`, `months`,
`locations`, `models`). -/
structure LoadedState where
  df : Df
  quarters : List String
  months : List String
  locations : List String
  models : List String
deriving DecidableEq

/-- `astype(str)` on a raw cell: a missing value renders as the string
`"nan"`. -/
def rawToStr (cell : Option PyVal) : String :=
  match cell with
  | none => "nan"
  | some v => pyStr v

/-- Numeric parse of a string cell under `pd.to_numeric(errors="coerce")`,
modeled for optionally-signed integer literals; anything else coerces to
`NaN` (and is then zero-filled). -/
def parseNum (s : String) : Option Int :=
  match stripChars s.data with
  | [] => none
  | c :: cs =>
    let digits := if c = '-' then cs else c :: cs
    if digits.isEmpty then none
    else if digits.all Char.isDigit then
      some ((if c = '-' then (-1 : Int) else 1) *
        (digits.foldl (fun n ch => n * 10 + ((ch.toNat : Int) - 48)) 0))
    else none

/-- `pd.to_numeric(errors="coerce").fillna(0)` on one raw cell. -/
def rawToNum (cell : Option PyVal) : Int :=
  match cell with
  | none => 0
  | some (.int n) => n
  | some (.float n) => n
  | some (.str s) => (parseNum s).getD 0

/-- The fresh state produced when nothing loads: empty frame, empty option
lists (the module-level initial values of the globals). -/
def initState : LoadedState :=
  { df := { cols := [], rows := [] }, quarters := [], months := [], locations := [], models := [] }

/-- `load_excel`: when no candidate path exists the empty frame is returned
with the option globals untouched; otherwise headers are cleaned and
renamed, the four required columns are checked (a missing one raises),
categorical columns are stripped strings, numeric columns are coerced with
zero fill, and the four sorted option lists are computed. -/
def load_excel (file : Option RawFile) : Except String LoadedState :=
  match file with
  | none => .ok initState
  | some raw =>
    let cols := raw.headers.map (fun c => renameCanon (clean_col_name c))
    match REQUIRED_COLS.find? (fun r => !(cols.contains r)) with
    | some r => .error ("Missing required column: " ++ r)
    | none =>
      let rows := raw.rows.map (fun row => cols.enum.map (fun p =>
        let cell := row.getD p.1 none
        if REQUIRED_COLS.contains p.2 then PyVal.str (pyStrip (rawToStr cell))
        else if NUMERIC_COLS.contains p.2 then PyVal.float (rawToNum cell)
        else match cell with
          | none => PyVal.str ("nan")
          | some v => v))
      let df : Df := { cols := cols, rows := rows }
      let quarters := pySortStr ((uniqueFirst (colStr df ("Fiscal Quarter"))).filter (fun x => x ≠ "nan"))
      let all_months := (uniqueFirst (colStr df ("Fiscal Month"))).filter (fun x => x ≠ "nan")
      let months := pySortMonths all_months
      let locations := pySortStr ((uniqueFirst (colStr df ("Location"))).filter (fun x => x ≠ "nan"))
      let models := pySortStr ((uniqueFirst (colStr df ("Model Group"))).filter (fun x => x ≠ "nan"))
      .ok { df := df, quarters := quarters, months := months, locations := locations, models := models }

/-- Module import time: `df = load_excel()` under `try/except`, degrading to
the empty frame (with the option globals still empty) on any load error. -/
def startup (file : Option RawFile) : LoadedState :=
  match load_excel file with
  | .ok st => st
  | .error _ => initState

/-- `GET /api/filter-options`. -/
def getFilterOptions (st : LoadedState) : List String × List String × List String × List String :=
  (st.quarters, st.months, st.locations, st.models)

/-- Assignment `d[k] = v` on an insertion-ordered Python dict: overwrite in
place when the key exists, append otherwise. -/
def assocSet (d : List (String × PyVal)) (k : String) (v : PyVal) : List (String × PyVal) :=
  if (d.map Prod.fst).contains k then d.map (fun p => if p.1 = k then (k, v) else p)
  else d ++ [(k, v)]

/-- `DataFrame.to_dict("records")` for one row: a dict from column name to
cell value, built in column order. -/
def rowRecord (cols : List String) (row : List PyVal) : List (String × PyVal) :=
  cols.enum.foldl (fun d p => assocSet d p.2 (row.getD p.1 (PyVal.str ("nan")))) []

/-- `filtered_df.to_dict("records")`. -/
def toRecords (df : Df) : List (List (String × PyVal)) :=
  df.rows.map (fun r => rowRecord df.cols r)

/-- Response shape of `POST /api/get-data`. -/
structure GetDataResult where
  data : List (List (String × PyVal))
  totals : List (String × PyVal)
  count : Nat
deriving DecidableEq

/-- `POST /api/get-data`: empty frame short-circuits to empty rows plus
totals over an empty frame that carries the numeric columns; otherwise
filter, aggregate and serialize the rows. -/
def get_data (st : LoadedState) (req : FilterRequest) : Except String GetDataResult :=
  if st.df.pdEmpty then
    Except.bind (compute_totals { cols := NUMERIC_COLS, rows := [] }) (fun t =>
      .ok { data := [], totals := t, count := 0 })
  else
    Except.bind (apply_filter st.df req) (fun f =>
    Except.bind (compute_totals f) (fun t =>
      .ok { data := toRecords f, totals := t, count := f.rows.length }))

/-- The totals row dict of `export_excel`: blanks for every column, then the
literal `TOTAL` under `Fiscal Quarter`, then the totals of the numeric
columns that are present (the dict keys never miss a numeric column, so
the `getD` default is never consulted). -/
def totalsRowDict (cols : List String) (t : List (String × PyVal)) : List (String × PyVal) :=
  let d0 := cols.foldl (fun d c => assocSet d c (PyVal.str (""))) []
  let d1 := assocSet d0 ("Fiscal Quarter") (PyVal.str ("TOTAL"))
  NUMERIC_COLS.foldl (fun d c =>
    if cols.contains c then assocSet d c ((t.lookup c).getD (PyVal.float 0)) else d) d1

/-- Header row of the exported sheet: the column names as string cells. -/
def headerRow (cols : List String) : List (Option PyVal) :=
  cols.map (fun c => some (PyVal.str c))

/-- A row of empty sheet cells. -/
def blankRowOf (n : Nat) : List (Option PyVal) :=
  List.replicate n none

/-- Rendering of a sheet cell for width measurement: `""` for an empty
cell, `str(value)` otherwise. -/
def renderCell : Option PyVal → String
  | none => ""
  | some v => pyStr v

/-- Number of used columns of the sheet (openpyxl iterates the used
rectangular range). -/
def gridNCols (grid : List (List (Option PyVal))) : Nat :=
  grid.foldr (fun r m => Nat.max r.length m) 0

/-- Length of the longest rendered cell in column `j`, header included
(the `max_len` loop of `export_excel`). -/
def maxRenderLen (grid : List (List (Option PyVal))) (j : Nat) : Nat :=
  grid.foldr (fun r m => Nat.max (renderCell (r.getD j none)).length m) 0

/-- Column widths of the sheet: for every used column, the length of the
longest rendered cell (header included) plus 2, capped at 50
(`min(max_len + 2, 50)`). -/
def colWidths (grid : List (List (Option PyVal))) : List Nat :=
  (List.range (gridNCols grid)).map (fun j => Nat.min (maxRenderLen grid j + 2) 50)

/-- Result of a successful export: the cell grid of the single `Sales Data`
sheet (row 1 first) and the computed column widths. -/
structure ExportResult where
  grid : List (List (Option PyVal))
  widths : List Nat
deriving DecidableEq

/-- `POST /api/export-excel`: reject the empty frame; otherwise write the
filtered frame (header plus data rows), then the totals row at 0-based row
`len(filtered_df) + 2 - 1` (pandas `startrow`), padding with blank rows if
that lies beyond the rows already written, and compute column widths. -/
def export_excel (st : LoadedState) (req : FilterRequest) : Except String ExportResult :=
  if st.df.pdEmpty then .error ("No data loaded")
  else
    Except.bind (apply_filter st.df req) (fun f =>
    Except.bind (compute_totals f) (fun t =>
      let base := headerRow f.cols :: f.rows.map (fun r => r.map some)
      let trow := (totalsRowDict f.cols t).map (fun p => some p.2)
      let start_row := f.rows.length + 2
      let grid := base ++ List.replicate ((start_row - 1) - base.length) (blankRowOf f.cols.length) ++ [trow]
      .ok { grid := grid, widths := colWidths grid }))

/-- Predicate of one guarded filter: trivially true when the stripped
criterion is blank, otherwise exact equality of the rendered field with the
stripped criterion. -/
def fieldPred (cols : List String) (col : String) (g : String) (r : List PyVal) : Bool :=
  (g == "") || (pyStr (colCell cols r col) == g)

/-- The conjunction of the four guarded equality predicates of
`apply_filter`, in source order. -/
def rowMatch (cols : List String) (req : FilterRequest) (r : List PyVal) : Bool :=
  ((fieldPred cols ("Fiscal Quarter") (pyStrip req.quarter) r
    && fieldPred cols ("Fiscal Month") (pyStrip req.month) r)
    && fieldPred cols ("Location") (pyStrip req.location) r)
    && fieldPred cols ("Model Group") (pyStrip req.model) r

/-- Every column actually accessed by `apply_filter` for this request is
present in the frame. -/
def reqColsOk (df : Df) (req : FilterRequest) : Prop :=
  (pyStrip req.quarter ≠ "" → ("Fiscal Quarter") ∈ df.cols) ∧
  (pyStrip req.month ≠ "" → ("Fiscal Month") ∈ df.cols) ∧
  (pyStrip req.location ≠ "" → ("Location") ∈ df.cols) ∧
  (pyStrip req.model ≠ "" → ("Model Group") ∈ df.cols)

/-- The frame carries the four required categorical columns (true for
every successfully loaded table). -/
def hasRequiredColsB (df : Df) : Bool :=
  REQUIRED_COLS.all (fun c => df.cols.contains c)

/-- Every numeric column present in the frame holds only numeric cells
(true for every loaded table, whose numeric columns are coerced). -/
def numericOkB (df : Df) : Bool :=
  NUMERIC_COLS.all (fun c =>
    match idxOf? c df.cols with
    | some i => df.rows.all (fun r => (cellNum (r.getD i (PyVal.str ("")))).isSome)
    | none => true)

/-- Modelled from the spec: the claimed fixed projection order — the four
categorical columns then the eight numeric columns in canonical order. -/
def FIXED_COLS : List String :=
  ["Fiscal Quarter", "Fiscal Month", "Location", "Model Group"] ++ NUMERIC_COLS

/-- Modelled from the spec: "the sorted set of distinct non-blank values"
of a column, used to compare against the option lists the code computes. -/
def specSortedNonBlank (vals : List String) : List String :=
  pySortStr ((uniqueFirst vals).filter (fun x => pyStrip x ≠ ""))

/-- Modelled from the spec: the claimed sheet layout — header row, data
rows, one blank row, then the totals row. -/
def specSheetLayout (f : Df) (t : List (String × PyVal)) : List (List (Option PyVal)) :=
  headerRow f.cols :: (f.rows.map (fun r => r.map some) ++
    [blankRowOf f.cols.length, (totalsRowDict f.cols t).map (fun p => some p.2)])

/-- Fixture: header list of the canonical source file. -/
def fixHeaders : List String :=
  ["Fiscal Quarter", "Fiscal Month", "Location", "Model Group"] ++ NUMERIC_COLS

/-- Fixture: a loaded two-row table over the canonical twelve columns. -/
def fixRow1 : List PyVal :=
  [.str ("Q1"), .str ("Apr"), .str ("North"), .str ("X"),
   .float 5, .float 100, .float 150, .float 2, .float 50, .float 60, .float 20, .float 30]

/-- Fixture: second data row. -/
def fixRow2 : List PyVal :=
  [.str ("Q2"), .str ("May"), .str ("South"), .str ("Y"),
   .float 3, .float 50, .float 70, .float 1, .float 20, .float 25, .float 16, .float 23]

/-- Fixture: the loaded DataFrame over the two rows. -/
def fixDf : Df :=
  { cols := fixHeaders, rows := [fixRow1, fixRow2] }

/-- Fixture: totals of `fixDf` (sums over both rows). -/
def fixT : List (String × PyVal) :=
  [ ("No of Billied Ros", PyVal.int 8),
    ("Acc Sale throughROs (GNDP)In Rs", PyVal.float 150),
    ("Acc Sale throughROs (MRP) In Rs", PyVal.float 220),
    ("No of Counter ROs", PyVal.int 3),
    ("Acc Sale throughCounter (GNDP) In Rs", PyVal.float 70),
    ("Acc Sale throughCounter (MRP) In Rs", PyVal.float 85),
    ("Acc Revenue (GNDP) / RO", PyVal.float 36),
    ("Acc Revenue (MRP) / RO", PyVal.float 53) ]

/-- Fixture: server state holding `fixDf` (option lists irrelevant for the
filter/aggregate/export paths). -/
def fixState : LoadedState :=
  { df := fixDf, quarters := [], months := [], locations := [], models := [] }

/-- Fixture: the all-blank filter request. -/
def reqBlank : FilterRequest :=
  { quarter := "", month := "", location := "", model := "" }

/-- Fixture: a raw source file whose quarter cell is whitespace only, so
the loaded value is the blank string. -/
def blankRaw : RawFile :=
  { headers := ["Fiscal Quarter", "Fiscal Month", "Location", "Model Group"],
    rows := [[some (.str (" ")), some (.str ("Apr")), some (.str ("X")), some (.str ("Y"))]] }

/-- Fixture: a raw source file whose month column carries the spec's month
ordering example, one month per row. -/
def monthsRaw : RawFile :=
  { headers := ["Fiscal Quarter", "Fiscal Month", "Location", "Model Group"],
    rows := [[some (.str ("Q1")), some (.str ("Jan")), some (.str ("X")), some (.str ("Y"))],
             [some (.str ("Q1")), some (.str ("Apr")), some (.str ("X")), some (.str ("Y"))],
             [some (.str ("Q1")), some (.str ("Dec")), some (.str ("X")), some (.str ("Y"))],
             [some (.str ("Q1")), some (.str ("Foo")), some (.str ("X")), some (.str ("Y"))]] }

/-- Fixture: a raw source file with the twelve canonical columns but the
`Location` column first. -/
def permRaw : RawFile :=
  { headers := ["Location", "Fiscal Quarter", "Fiscal Month", "Model Group"] ++ NUMERIC_COLS,
    rows := [[some (.str ("North")), some (.str ("Q1")), some (.str ("Apr")), some (.str ("X")),
              some (.int 5), some (.int 100), some (.int 150), some (.int 2),
              some (.int 50), some (.int 60), some (.int 20), some (.int 30)]] }

/-- Fixture: the column order loaded from `permRaw`. -/
def permCols : List String :=
  ["Location", "Fiscal Quarter", "Fiscal Month", "Model Group"] ++ NUMERIC_COLS

/-- Fixture: a raw source file missing the required `Location` column. -/
def badRaw : RawFile :=
  { headers := ["Fiscal Quarter", "Fiscal Month", "Model Group"],
    rows := [[some (.str ("Q1")), some (.str ("Apr")), some (.str ("Y"))]] }

/-- Fixture: a raw source file loading exactly to `fixDf`. -/
def fixRaw : RawFile :=
  { headers := fixHeaders,
    rows := [[some (.str ("Q1")), some (.str ("Apr")), some (.str ("North")), some (.str ("X")),
              some (.int 5), some (.int 100), some (.int 150), some (.int 2),
              some (.int 50), some (.int 60), some (.int 20), some (.int 30)],
             [some (.str ("Q2")), some (.str ("May")), some (.str ("South")), some (.str ("Y")),
              some (.int 3), some (.int 50), some (.int 70), some (.int 1),
              some (.int 20), some (.int 25), some (.int 16), some (.int 23)]] }

/-- The sheet layout `export_excel` actually produces for a filtered frame
and its totals: header row, data rows in order, and the totals row
immediately after (the pandas `startrow` lands on the row right after the
data, so no blank row appears). -/
def exportGridOf (f : Df) (t : List (String × PyVal)) : List (List (Option PyVal)) :=
  headerRow f.cols :: (f.rows.map (fun r => r.map some) ++
    [(totalsRowDict f.cols t).map (fun p => some p.2)])

/-- Fixture: the subset of `fixDf` matching quarter `Q1` (its first row). -/
def fixF1 : Df :=
  { cols := fixHeaders, rows := [fixRow1] }

/-- Fixture: a quarter criterion surrounded by whitespace. -/
def reqQ1sp : FilterRequest :=
  { quarter := " Q1 ", month := "", location := "", model := "" }

/-! ### Basic reduction lemmas -/

theorem except_bind_ok (a : α) (f : α → Except ε β) : Except.bind (Except.ok a) f = f a :=
  rfl

theorem except_bind_error (e : ε) (f : α → Except ε β) :
    Except.bind (Except.error e : Except ε α) f = Except.error e :=
  rfl

theorem idxOf?_isSome_of_mem {c : String} :
    ∀ {l : List String}, c ∈ l → ∃ i, idxOf? c l = some i := by
  intro l h
  induction l with
  | nil => cases h
  | cons x xs ih =>
    by_cases hx : x = c
    · exact ⟨0, by simp [idxOf?, hx]⟩
    · have hc : c ∈ xs := by
        rcases List.mem_cons.mp h with h' | h'
        · exact absurd h'.symm hx
        · exact h'
      obtain ⟨i, hi⟩ := ih hc
      exact ⟨i + 1, by simp [idxOf?, hx, hi]⟩

theorem idxOf?_of_not_mem {c : String} :
    ∀ {l : List String}, c ∉ l → idxOf? c l = none := by
  intro l h
  induction l with
  | nil => rfl
  | cons x xs ih =>
    have hx : x ≠ c := fun he => h (he ▸ List.mem_cons_self x xs)
    have hc : c ∉ xs := fun hm => h (List.mem_cons_of_mem x hm)
    simp [idxOf?, hx, ih hc]

/-! ### Characterization of `apply_filter` -/

theorem guardStep_eq {cols : List String} {rows : List (List PyVal)} {col g : String}
    (h : g ≠ "" → col ∈ cols) :
    guardStep { cols := cols, rows := rows } col g =
      .ok { cols := cols, rows := rows.filter (fieldPred cols col g) } := by
  by_cases hg : g = ""
  · subst hg
    have hp : rows.filter (fieldPred cols col ("")) = rows :=
      List.filter_eq_self.mpr (fun r _ => by simp [fieldPred])
    simp [guardStep, hp]
  · obtain ⟨i, hi⟩ := idxOf?_isSome_of_mem (h hg)
    have hp : ∀ r ∈ rows,
        (pyStr (r.getD i (PyVal.str (""))) == g) = fieldPred cols col g r := by
      intro r _
      simp [fieldPred, colCell, hi, hg]
    simp only [guardStep, if_pos hg, filterStep, hi]
    rw [List.filter_congr hp]

theorem bool_and_reassoc (a b c d : Bool) :
    (d && (c && (b && a))) = (((a && b) && c) && d) := by
  cases a <;> cases b <;> cases c <;> cases d <;> rfl

theorem apply_filter_ok {df : Df} {req : FilterRequest} (h : reqColsOk df req) :
    apply_filter df req =
      .ok { cols := df.cols, rows := df.rows.filter (rowMatch df.cols req) } := by
  obtain ⟨cols, rows⟩ := df
  obtain ⟨h1, h2, h3, h4⟩ := h
  rw [apply_filter, guardStep_eq h1, except_bind_ok, guardStep_eq h2, except_bind_ok,
    guardStep_eq h3, except_bind_ok, guardStep_eq h4]
  simp only [List.filter_filter]
  congr 2
  exact List.filter_congr (fun r _ => bool_and_reassoc _ _ _ _)

theorem apply_filter_error {df : Df} {req : FilterRequest} (h : ¬ reqColsOk df req) :
    ∃ e, apply_filter df req = .error e := by
  obtain ⟨cols, rows⟩ := df
  rw [apply_filter]
  by_cases h1 : pyStrip req.quarter ≠ "" → ("Fiscal Quarter") ∈ cols
  · rw [guardStep_eq h1, except_bind_ok]
    by_cases h2 : pyStrip req.month ≠ "" → ("Fiscal Month") ∈ cols
    · rw [guardStep_eq h2, except_bind_ok]
      by_cases h3 : pyStrip req.location ≠ "" → ("Location") ∈ cols
      · rw [guardStep_eq h3, except_bind_ok]
        by_cases h4 : pyStrip req.model ≠ "" → ("Model Group") ∈ cols
        · exact absurd ⟨h1, h2, h3, h4⟩ h
        · push_neg at h4
          exact ⟨"KeyError: " ++ "Model Group", by
            simp only [guardStep, if_pos (by simpa using h4.1), filterStep,
              idxOf?_of_not_mem h4.2]⟩
      · push_neg at h3
        exact ⟨"KeyError: " ++ "Location", by
          simp only [guardStep, if_pos (by simpa using h3.1), filterStep,
            idxOf?_of_not_mem h3.2, except_bind_error]⟩
    · push_neg at h2
      exact ⟨"KeyError: " ++ "Fiscal Month", by
        simp only [guardStep, if_pos (by simpa using h2.1), filterStep,
          idxOf?_of_not_mem h2.2, except_bind_error]⟩
  · push_neg at h1
    exact ⟨"KeyError: " ++ "Fiscal Quarter", by
      simp only [guardStep, if_pos (by simpa using h1.1), filterStep,
        idxOf?_of_not_mem h1.2, except_bind_error]⟩

theorem apply_filter_inv {df : Df} {req : FilterRequest} {f : Df}
    (h : apply_filter df req = .ok f) :
    reqColsOk df req ∧
      f = { cols := df.cols, rows := df.rows.filter (rowMatch df.cols req) } := by
  by_cases hr : reqColsOk df req
  · refine ⟨hr, ?_⟩
    have := apply_filter_ok hr
    rw [h] at this
    exact (Except.ok.injEq _ _).mp this
  · obtain ⟨e, he⟩ := apply_filter_error hr
    rw [h] at he
    cases he

/-! ### Idempotence of `str.strip` -/

theorem dropWhile_idem (p : Char → Bool) (l : List Char) :
    (l.dropWhile p).dropWhile p = l.dropWhile p := by
  induction l with
  | nil => rfl
  | cons a l ih =>
    by_cases h : p a
    · simp [List.dropWhile_cons, h, ih]
    · simp [List.dropWhile_cons, h]

theorem dropWhile_head_false {p : Char → Bool} :
    ∀ (l : List Char) {x xs}, l.dropWhile p = x :: xs → p x = false := by
  intro l
  induction l with
  | nil => intro x xs h; cases h
  | cons a l ih =>
    intro x xs h
    by_cases ha : p a
    · rw [List.dropWhile_cons, if_pos ha] at h
      exact ih h
    · rw [List.dropWhile_cons, if_neg ha] at h
      cases h
      simpa using ha

theorem dropWhile_append_singleton {p : Char → Bool} {x : Char} (hx : p x = false) :
    ∀ m : List Char, ∃ r, (m ++ [x]).dropWhile p = r ++ [x] := by
  intro m
  induction m with
  | nil => exact ⟨[], by simp [List.dropWhile_cons, hx]⟩
  | cons a m ih =>
    by_cases ha : p a
    · obtain ⟨r, hr⟩ := ih
      exact ⟨r, by simp [List.dropWhile_cons, ha, hr]⟩
    · exact ⟨a :: m, by simp [List.dropWhile_cons, ha]⟩

theorem stripChars_idem (l : List Char) : stripChars (stripChars l) = stripChars l := by
  cases hA : l.dropWhile Char.isWhitespace with
  | nil => simp [stripChars, hA]
  | cons x xs =>
    have hx : Char.isWhitespace x = false := dropWhile_head_false l hA
    have hrev : (x :: xs).reverse = xs.reverse ++ [x] := by simp
    obtain ⟨r, hr⟩ := dropWhile_append_singleton hx xs.reverse
    have hsl : stripChars l = x :: r.reverse := by
      rw [stripChars, hA, hrev, hr]
      simp
    rw [hsl]
    have h1 : (x :: r.reverse).dropWhile Char.isWhitespace = x :: r.reverse := by
      rw [List.dropWhile_cons, if_neg (by simp [hx])]
    have h2 : (x :: r.reverse).reverse = r ++ [x] := by simp
    have h3 : (r ++ [x]).dropWhile Char.isWhitespace = r ++ [x] := by
      have := dropWhile_idem Char.isWhitespace ((x :: xs).reverse)
      rw [hrev, hr] at this
      exact this
    rw [stripChars, h1, h2, h3]
    simp

theorem pyStrip_idem (s : String) : pyStrip (pyStrip s) = pyStrip s := by
  unfold pyStrip
  rw [stripChars_idem]

/-! ### Order properties of the two sort relations -/

theorem charsLe_total : ∀ as bs : List Char, charsLe as bs = true ∨ charsLe bs as = true := by
  intro as
  induction as with
  | nil => intro bs; left; rfl
  | cons a as ih =>
    intro bs
    cases bs with
    | nil => right; rfl
    | cons b bs =>
      by_cases hab : a.toNat = b.toNat
      · rcases ih bs with h | h
        · left; simp only [charsLe, if_pos hab]; exact h
        · right; simp only [charsLe, if_pos hab.symm]; exact h
      · rcases Nat.lt_or_ge a.toNat b.toNat with hlt | hge
        · left; simp only [charsLe, if_neg hab, decide_eq_true_eq]; exact hlt
        · right
          have hba : b.toNat ≠ a.toNat := fun he => hab he.symm
          have hlt : b.toNat < a.toNat := Nat.lt_of_le_of_ne hge hba
          simp only [charsLe, if_neg hba, decide_eq_true_eq]
          exact hlt

theorem charsLe_trans : ∀ as bs cs : List Char,
    charsLe as bs = true → charsLe bs cs = true → charsLe as cs = true := by
  intro as
  induction as with
  | nil => intro bs cs _ _; rfl
  | cons a as ih =>
    intro bs cs h1 h2
    cases bs with
    | nil => simp [charsLe] at h1
    | cons b bs =>
      cases cs with
      | nil => simp [charsLe] at h2
      | cons c cs =>
        by_cases hab : a.toNat = b.toNat
        · by_cases hbc : b.toNat = c.toNat
          · have hac : a.toNat = c.toNat := hab.trans hbc
            simp only [charsLe, if_pos hab] at h1
            simp only [charsLe, if_pos hbc] at h2
            simp only [charsLe, if_pos hac]
            exact ih bs cs h1 h2
          · simp only [charsLe, if_neg hbc, decide_eq_true_eq] at h2
            have hac : a.toNat < c.toNat := by rw [hab]; exact h2
            simp only [charsLe, if_neg (Nat.ne_of_lt hac), decide_eq_true_eq]
            exact hac
        · simp only [charsLe, if_neg hab, decide_eq_true_eq] at h1
          by_cases hbc : b.toNat = c.toNat
          · have hac : a.toNat < c.toNat := by rw [← hbc]; exact h1
            simp only [charsLe, if_neg (Nat.ne_of_lt hac), decide_eq_true_eq]
            exact hac
          · simp only [charsLe, if_neg hbc, decide_eq_true_eq] at h2
            have hac : a.toNat < c.toNat := h1.trans h2
            simp only [charsLe, if_neg (Nat.ne_of_lt hac), decide_eq_true_eq]
            exact hac

instance : IsTotal String pyStrLe :=
  ⟨fun a b => charsLe_total a.data b.data⟩

instance : IsTrans String pyStrLe :=
  ⟨fun a b c => charsLe_trans a.data b.data c.data⟩

instance : IsTotal String monthLe :=
  ⟨fun a b => Nat.le_total (monthRank a) (monthRank b)⟩

instance : IsTrans String monthLe :=
  ⟨fun _ _ _ => Nat.le_trans⟩

/-! ### First-occurrence deduplication -/

theorem mem_uniqueFirstAux (x : String) :
    ∀ (l seen : List String), x ∈ uniqueFirstAux seen l ↔ x ∈ l ∧ x ∉ seen := by
  intro l
  induction l with
  | nil => intro seen; simp [uniqueFirstAux]
  | cons y ys ih =>
    intro seen
    by_cases hy : y ∈ seen
    · rw [uniqueFirstAux, if_pos hy, ih]
      constructor
      · rintro ⟨hx, hs⟩
        exact ⟨List.mem_cons_of_mem _ hx, hs⟩
      · rintro ⟨hx, hs⟩
        rcases List.mem_cons.mp hx with rfl | hx'
        · exact absurd hy hs
        · exact ⟨hx', hs⟩
    · rw [uniqueFirstAux, if_neg hy]
      constructor
      · intro hx
        rcases List.mem_cons.mp hx with rfl | hx'
        · exact ⟨List.mem_cons_self _ _, hy⟩
        · obtain ⟨h1, h2⟩ := (ih (y :: seen)).mp hx'
          exact ⟨List.mem_cons_of_mem _ h1, fun hs => h2 (List.mem_cons_of_mem _ hs)⟩
      · rintro ⟨hx, hs⟩
        rcases List.mem_cons.mp hx with rfl | hx'
        · exact List.mem_cons_self _ _
        · by_cases hxy : x = y
          · subst hxy
            exact List.mem_cons_self _ _
          · exact List.mem_cons_of_mem _ ((ih (y :: seen)).mpr ⟨hx', by simp [hs, hxy]⟩)

theorem nodup_uniqueFirstAux :
    ∀ (l seen : List String), (uniqueFirstAux seen l).Nodup := by
  intro l
  induction l with
  | nil => intro seen; simp [uniqueFirstAux]
  | cons y ys ih =>
    intro seen
    by_cases hy : y ∈ seen
    · rw [uniqueFirstAux, if_pos hy]
      exact ih seen
    · rw [uniqueFirstAux, if_neg hy]
      refine List.nodup_cons.mpr ⟨?_, ih (y :: seen)⟩
      intro hmem
      exact ((mem_uniqueFirstAux y ys (y :: seen)).mp hmem).2 (List.mem_cons_self _ _)

theorem mem_uniqueFirst {x : String} {l : List String} : x ∈ uniqueFirst l ↔ x ∈ l := by
  rw [uniqueFirst, mem_uniqueFirstAux]
  simp

theorem nodup_uniqueFirst (l : List String) : (uniqueFirst l).Nodup :=
  nodup_uniqueFirstAux l []

/-! ### Totals over empty frames, and totality of totals -/

theorem contains_iff_mem {l : List String} {c : String} : l.contains c = true ↔ c ∈ l := by
  simp

theorem colSumE_nil (cols : List String) (c : String) (h : c ∈ cols) :
    colSumE { cols := cols, rows := [] } c = .ok 0 := by
  obtain ⟨i, hi⟩ := idxOf?_isSome_of_mem h
  simp [colSumE, hi, optionMapList]

theorem totalsEntry_nil (cols : List String) (c : String) :
    totalsEntry { cols := cols, rows := [] } c = .ok (c, PyVal.float 0) := by
  by_cases h : List.contains cols c = true
  · rw [totalsEntry, if_pos h, colSumE_nil cols c (contains_iff_mem.mp h)]
    rfl
  · rw [totalsEntry, if_neg h]

theorem countEntry_nil (cols : List String) (c : String) :
    countEntry { cols := cols, rows := [] } c = .ok (PyVal.int 0) := by
  by_cases h : List.contains cols c = true
  · rw [countEntry, if_pos h, colSumE_nil cols c (contains_iff_mem.mp h)]
    rfl
  · rw [countEntry, if_neg h]

theorem exceptMap_ok_of {f : α → Except ε β} {g : α → β} :
    ∀ {l : List α}, (∀ x ∈ l, f x = .ok (g x)) → exceptMap f l = .ok (l.map g) := by
  intro l h
  induction l with
  | nil => rfl
  | cons x xs ih =>
    rw [exceptMap, h x (List.mem_cons_self _ _), except_bind_ok,
      ih (fun z hz => h z (List.mem_cons_of_mem _ hz)), except_bind_ok]
    rfl

theorem compute_totals_empty_rows (cols : List String) :
    compute_totals { cols := cols, rows := [] } = .ok ZERO_TOTALS := by
  have hbase : exceptMap (totalsEntry { cols := cols, rows := [] }) NUMERIC_COLS =
      .ok (NUMERIC_COLS.map (fun c => (c, PyVal.float 0))) :=
    exceptMap_ok_of (fun c _ => totalsEntry_nil cols c)
  rw [compute_totals, hbase, except_bind_ok, countEntry_nil, except_bind_ok,
    countEntry_nil, except_bind_ok]
  rfl

theorem optionMapList_isSome {f : α → Option β} :
    ∀ {l : List α}, (∀ x ∈ l, (f x).isSome = true) → ∃ ys, optionMapList f l = some ys := by
  intro l h
  induction l with
  | nil => exact ⟨[], rfl⟩
  | cons x xs ih =>
    obtain ⟨y, hy⟩ := Option.isSome_iff_exists.mp (h x (List.mem_cons_self _ _))
    obtain ⟨ys, hys⟩ := ih (fun z hz => h z (List.mem_cons_of_mem _ hz))
    exact ⟨y :: ys, by simp [optionMapList, hy, hys]⟩

theorem colSumE_ok_of_numeric {df : Df} {c : String} {i : Nat}
    (hi : idxOf? c df.cols = some i)
    (h : ∀ r ∈ df.rows, (cellNum (r.getD i (PyVal.str ("")))).isSome = true) :
    ∃ s, colSumE df c = .ok s := by
  obtain ⟨ys, hys⟩ := optionMapList_isSome h
  refine ⟨ys.sum, ?_⟩
  simp only [colSumE, hi]
  rw [hys]

theorem exceptMap_ok_exists {f : α → Except ε β} :
    ∀ {l : List α}, (∀ x ∈ l, ∃ y, f x = .ok y) → ∃ ys, exceptMap f l = .ok ys := by
  intro l h
  induction l with
  | nil => exact ⟨[], rfl⟩
  | cons x xs ih =>
    obtain ⟨y, hy⟩ := h x (List.mem_cons_self _ _)
    obtain ⟨ys, hys⟩ := ih (fun z hz => h z (List.mem_cons_of_mem _ hz))
    exact ⟨y :: ys, by rw [exceptMap, hy, except_bind_ok, hys, except_bind_ok]⟩

theorem totalsEntry_ok_of_numericOk {df : Df} (h : numericOkB df = true) :
    ∀ c ∈ NUMERIC_COLS, ∃ v, totalsEntry df c = .ok v := by
  intro c hc
  by_cases hcc : List.contains df.cols c = true
  · obtain ⟨i, hi⟩ := idxOf?_isSome_of_mem (contains_iff_mem.mp hcc)
    have hmatch := List.all_eq_true.mp h c hc
    rw [hi] at hmatch
    have hnum := List.all_eq_true.mp hmatch
    obtain ⟨s, hs⟩ := colSumE_ok_of_numeric hi hnum
    exact ⟨(c, PyVal.float s), by rw [totalsEntry, if_pos hcc, hs]; rfl⟩
  · exact ⟨(c, PyVal.float 0), by rw [totalsEntry, if_neg hcc]⟩

theorem countEntry_ok_of_numericOk {df : Df} (h : numericOkB df = true) :
    ∀ c ∈ NUMERIC_COLS, ∃ v, countEntry df c = .ok v := by
  intro c hc
  by_cases hcc : List.contains df.cols c = true
  · obtain ⟨i, hi⟩ := idxOf?_isSome_of_mem (contains_iff_mem.mp hcc)
    have hmatch := List.all_eq_true.mp h c hc
    rw [hi] at hmatch
    have hnum := List.all_eq_true.mp hmatch
    obtain ⟨s, hs⟩ := colSumE_ok_of_numeric hi hnum
    exact ⟨PyVal.int s, by rw [countEntry, if_pos hcc, hs]; rfl⟩
  · exact ⟨PyVal.int 0, by rw [countEntry, if_neg hcc]⟩

theorem compute_totals_ok {df : Df} (h : numericOkB df = true) :
    ∃ t, compute_totals df = .ok t := by
  obtain ⟨base, hbase⟩ := exceptMap_ok_exists (totalsEntry_ok_of_numericOk h)
  obtain ⟨b, hb⟩ := countEntry_ok_of_numericOk h ("No of Billied Ros") (by decide)
  obtain ⟨k, hk⟩ := countEntry_ok_of_numericOk h ("No of Counter ROs") (by decide)
  exact ⟨_, by rw [compute_totals, hbase, except_bind_ok, hb, except_bind_ok, hk, except_bind_ok]⟩

/-! ### Python dict lemmas -/

theorem lookup_map_replace (k : String) (v : PyVal) :
    ∀ d : List (String × PyVal), k ∈ d.map Prod.fst →
      (d.map (fun p => if p.1 = k then (k, v) else p)).lookup k = some v := by
  intro d
  induction d with
  | nil => intro h; simp at h
  | cons p ps ih =>
    intro h
    by_cases hp : p.1 = k
    · rw [List.map_cons, if_pos hp]
      simp [List.lookup]
    · have h' : k ∈ ps.map Prod.fst := by
        rw [List.map_cons] at h
        rcases List.mem_cons.mp h with h0 | h0
        · exact absurd h0.symm hp
        · exact h0
      have hk : (k == p.1) = false := beq_eq_false_iff_ne.mpr (fun he => hp he.symm)
      rw [List.map_cons, if_neg hp]
      simp only [List.lookup, hk]
      exact ih h'

theorem lookup_append_not_mem (k : String) (v : PyVal) :
    ∀ d : List (String × PyVal), k ∉ d.map Prod.fst →
      (d ++ [(k, v)]).lookup k = some v := by
  intro d
  induction d with
  | nil => simp [List.lookup]
  | cons p ps ih =>
    intro h
    have hp : (k == p.1) = false :=
      beq_eq_false_iff_ne.mpr (fun he => h (by simp [he]))
    simp only [List.cons_append, List.lookup, hp]
    exact ih (fun hm => h (by simp [hm]))

theorem lookup_assocSet_self (d : List (String × PyVal)) (k : String) (v : PyVal) :
    (assocSet d k v).lookup k = some v := by
  rw [assocSet]
  by_cases h : List.contains (d.map Prod.fst) k = true
  · rw [if_pos h]
    exact lookup_map_replace k v d (contains_iff_mem.mp h)
  · rw [if_neg h]
    exact lookup_append_not_mem k v d (fun hm => h (contains_iff_mem.mpr hm))

theorem lookup_replace_other (k k' : String) (v : PyVal) (hb : (k' == k) = false) :
    ∀ d : List (String × PyVal),
      (d.map (fun p => if p.1 = k then (k, v) else p)).lookup k' = d.lookup k' := by
  intro d
  induction d with
  | nil => rfl
  | cons p ps ih =>
    by_cases hp : p.1 = k
    · have hk' : (k' == p.1) = false := by rw [hp]; exact hb
      rw [List.map_cons, if_pos hp]
      simp only [List.lookup, hb, hk']
      exact ih
    · rw [List.map_cons, if_neg hp]
      by_cases hkp : (k' == p.1) = true
      · simp only [List.lookup, hkp]
      · simp only [Bool.not_eq_true] at hkp
        simp only [List.lookup, hkp]
        exact ih

theorem lookup_append_other (k k' : String) (v : PyVal) (hb : (k' == k) = false) :
    ∀ d : List (String × PyVal), (d ++ [(k, v)]).lookup k' = d.lookup k' := by
  intro d
  induction d with
  | nil => simp [List.lookup, hb]
  | cons p ps ih =>
    simp only [List.cons_append, List.lookup]
    by_cases hkp : (k' == p.1) = true
    · simp only [hkp]
    · simp only [Bool.not_eq_true] at hkp
      simp only [hkp]
      exact ih

theorem lookup_assocSet_other (k k' : String) (v : PyVal) (hne : k' ≠ k) :
    ∀ d : List (String × PyVal), (assocSet d k v).lookup k' = d.lookup k' := by
  have hb : (k' == k) = false := beq_eq_false_iff_ne.mpr hne
  intro d
  rw [assocSet]
  by_cases h : List.contains (d.map Prod.fst) k = true
  · rw [if_pos h]
    exact lookup_replace_other k k' v hb d
  · rw [if_neg h]
    exact lookup_append_other k k' v hb d

theorem lookup_foldl_not_mem (P : String → Bool) (g : String → PyVal) (k : String) :
    ∀ (cs : List String) (d : List (String × PyVal)), k ∉ cs →
      ((cs.foldl (fun d c => if P c then assocSet d c (g c) else d) d).lookup k) = d.lookup k := by
  intro cs
  induction cs with
  | nil => intro d _; rfl
  | cons c cs ih =>
    intro d hk
    have hc : k ≠ c := fun he => hk (he ▸ List.mem_cons_self _ _)
    rw [List.foldl_cons, ih _ (fun hm => hk (List.mem_cons_of_mem _ hm))]
    by_cases hp : P c = true
    · rw [if_pos hp]
      exact lookup_assocSet_other c k (g c) hc d
    · rw [if_neg hp]

theorem lookup_foldl_mem (P : String → Bool) (g : String → PyVal) (k : String) :
    ∀ (cs : List String) (d : List (String × PyVal)), cs.Nodup → k ∈ cs → P k = true →
      ((cs.foldl (fun d c => if P c then assocSet d c (g c) else d) d).lookup k) = some (g k) := by
  intro cs
  induction cs with
  | nil => intro d _ h _; cases h
  | cons c cs ih =>
    intro d hnd hk hP
    rw [List.foldl_cons]
    rcases List.mem_cons.mp hk with rfl | hk'
    · have hnotin : k ∉ cs := (List.nodup_cons.mp hnd).1
      rw [lookup_foldl_not_mem P g k cs _ hnotin, if_pos hP]
      exact lookup_assocSet_self d k (g k)
    · exact ih _ (List.nodup_cons.mp hnd).2 hk' hP

theorem map_fst_replace (k : String) (v : PyVal) :
    ∀ d : List (String × PyVal),
      (d.map (fun p => if p.1 = k then (k, v) else p)).map Prod.fst = d.map Prod.fst := by
  intro d
  induction d with
  | nil => rfl
  | cons p ps ih =>
    by_cases hp : p.1 = k
    · rw [List.map_cons, if_pos hp]
      simp [ih, hp]
    · rw [List.map_cons, if_neg hp]
      simp [ih]

theorem assocSet_keys (d : List (String × PyVal)) (k : String) (v : PyVal) :
    (assocSet d k v).map Prod.fst =
      if k ∈ d.map Prod.fst then d.map Prod.fst else d.map Prod.fst ++ [k] := by
  rw [assocSet]
  by_cases h : List.contains (d.map Prod.fst) k = true
  · rw [if_pos h, if_pos (contains_iff_mem.mp h), map_fst_replace]
  · rw [if_neg h, if_neg (fun hm => h (contains_iff_mem.mpr hm))]
    simp

theorem uniqueFirstAux_congr :
    ∀ (l s1 s2 : List String), (∀ x, x ∈ s1 ↔ x ∈ s2) →
      uniqueFirstAux s1 l = uniqueFirstAux s2 l := by
  intro l
  induction l with
  | nil => intro s1 s2 _; rfl
  | cons y ys ih =>
    intro s1 s2 h
    by_cases hy : y ∈ s1
    · rw [uniqueFirstAux, if_pos hy, uniqueFirstAux, if_pos ((h y).mp hy)]
      exact ih s1 s2 h
    · rw [uniqueFirstAux, if_neg hy, uniqueFirstAux, if_neg (fun hm => hy ((h y).mpr hm))]
      congr 1
      refine ih _ _ (fun x => ?_)
      simp [List.mem_cons, h x]

theorem foldl_assocSet_keys (g : Nat × String → PyVal) :
    ∀ (ps : List (Nat × String)) (d : List (String × PyVal)),
      ((ps.foldl (fun d p => assocSet d p.2 (g p)) d).map Prod.fst) =
        d.map Prod.fst ++ uniqueFirstAux (d.map Prod.fst) (ps.map Prod.snd) := by
  intro ps
  induction ps with
  | nil => intro d; simp [uniqueFirstAux]
  | cons p ps ih =>
    intro d
    rw [List.foldl_cons, ih, assocSet_keys]
    by_cases hm : p.2 ∈ d.map Prod.fst
    · rw [if_pos hm, List.map_cons, uniqueFirstAux, if_pos hm]
    · rw [if_neg hm, List.map_cons, uniqueFirstAux, if_neg hm]
      rw [uniqueFirstAux_congr (ps.map Prod.snd) (d.map Prod.fst ++ [p.2]) (p.2 :: d.map Prod.fst)
        (fun x => by simp [List.mem_append, List.mem_cons, or_comm])]
      simp

theorem rowRecord_keys (cols : List String) (row : List PyVal) :
    (rowRecord cols row).map Prod.fst = uniqueFirst cols := by
  rw [rowRecord, foldl_assocSet_keys]
  simp [uniqueFirst, List.enum_map_snd]

/-! ### Load characterization -/

theorem load_excel_ok_inv {raw : RawFile} {st : LoadedState}
    (h : load_excel (some raw) = .ok st) :
    st.df.cols = raw.headers.map (fun c => renameCanon (clean_col_name c)) ∧
    st.quarters = pySortStr ((uniqueFirst (colStr st.df ("Fiscal Quarter"))).filter (fun x => x ≠ "nan")) ∧
    st.months = pySortMonths ((uniqueFirst (colStr st.df ("Fiscal Month"))).filter (fun x => x ≠ "nan")) ∧
    st.locations = pySortStr ((uniqueFirst (colStr st.df ("Location"))).filter (fun x => x ≠ "nan")) ∧
    st.models = pySortStr ((uniqueFirst (colStr st.df ("Model Group"))).filter (fun x => x ≠ "nan")) := by
  simp only [load_excel] at h
  cases hfind : REQUIRED_COLS.find?
      (fun r => !(List.contains (raw.headers.map (fun c => renameCanon (clean_col_name c))) r)) with
  | some r =>
    rw [hfind] at h
    cases h
  | none =>
    rw [hfind] at h
    have he := (Except.ok.injEq _ _).mp h
    subst he
    exact ⟨rfl, rfl, rfl, rfl, rfl⟩

theorem startup_of_load_error {raw : RawFile} (h : ∃ e, load_excel (some raw) = .error e) :
    startup (some raw) = initState := by
  obtain ⟨e, he⟩ := h
  rw [startup, he]

/-! ### Totals-row dict and width lemmas for the export sheet -/

theorem totalsRowDict_lookup_quarter (cols : List String) (t : List (String × PyVal)) :
    (totalsRowDict cols t).lookup ("Fiscal Quarter") = some (PyVal.str ("TOTAL")) := by
  simp only [totalsRowDict]
  have hpres := lookup_foldl_not_mem (fun c => List.contains cols c)
    (fun c => (t.lookup c).getD (PyVal.float 0)) ("Fiscal Quarter") NUMERIC_COLS
    (assocSet (cols.foldl (fun d c => assocSet d c (PyVal.str (""))) [])
      ("Fiscal Quarter") (PyVal.str ("TOTAL"))) (by decide)
  rw [show (NUMERIC_COLS.foldl (fun d c =>
        if List.contains cols c then assocSet d c ((t.lookup c).getD (PyVal.float 0)) else d)
        (assocSet (cols.foldl (fun d c => assocSet d c (PyVal.str (""))) [])
          ("Fiscal Quarter") (PyVal.str ("TOTAL")))).lookup ("Fiscal Quarter") =
      (assocSet (cols.foldl (fun d c => assocSet d c (PyVal.str (""))) [])
        ("Fiscal Quarter") (PyVal.str ("TOTAL"))).lookup ("Fiscal Quarter") from hpres]
  exact lookup_assocSet_self _ _ _

theorem totalsRowDict_lookup_numeric (cols : List String) (t : List (String × PyVal))
    (c : String) (hc : c ∈ NUMERIC_COLS) (hcc : c ∈ cols) :
    (totalsRowDict cols t).lookup c = some ((t.lookup c).getD (PyVal.float 0)) := by
  simp only [totalsRowDict]
  exact lookup_foldl_mem (fun c => List.contains cols c)
    (fun c => (t.lookup c).getD (PyVal.float 0)) c NUMERIC_COLS _
    (by decide) hc (contains_iff_mem.mpr hcc)

theorem colWidths_getD (grid : List (List (Option PyVal))) (j : Nat) (h : j < gridNCols grid) :
    (colWidths grid).getD j 0 = Nat.min (maxRenderLen grid j + 2) 50 := by
  rw [colWidths, List.getD_eq_getElem?_getD]
  simp [List.getElem?_map, List.getElem?_range h]

theorem colWidths_le (grid : List (List (Option PyVal))) : ∀ w ∈ colWidths grid, w ≤ 50 := by
  intro w hw
  rw [colWidths] at hw
  simp only [List.mem_map, List.mem_range] at hw
  obtain ⟨j, _, hj⟩ := hw
  rw [← hj]
  exact Nat.min_le_right _ _

theorem fieldPred_eq {cols : List String} {col g : String} {r : List PyVal}
    (h : fieldPred cols col g r = true) (hg : g ≠ "") :
    pyStr (colCell cols r col) = g := by
  rw [fieldPred] at h
  rcases Bool.or_eq_true _ _ |>.mp h with h0 | h0
  · exact absurd (beq_iff_eq.mp h0) hg
  · exact beq_iff_eq.mp h0

theorem export_excel_eq {st : LoadedState} {req : FilterRequest} {f : Df}
    {t : List (String × PyVal)}
    (hne : st.df.pdEmpty = false)
    (hf : apply_filter st.df req = .ok f) (ht : compute_totals f = .ok t) :
    export_excel st req = .ok
      { grid := headerRow f.cols :: (f.rows.map (fun r => r.map some) ++
          [(totalsRowDict f.cols t).map (fun p => some p.2)]),
        widths := colWidths (headerRow f.cols :: (f.rows.map (fun r => r.map some) ++
          [(totalsRowDict f.cols t).map (fun p => some p.2)])) } := by
  simp only [export_excel, hne, Bool.false_eq_true, if_false]
  rw [hf, except_bind_ok, ht, except_bind_ok]
  have hlen : ((f.rows.length + 2 - 1) -
      (headerRow f.cols :: f.rows.map (fun r => r.map some)).length) = 0 := by
    simp
  rw [hlen]
  simp [List.cons_append]

theorem pyStrip_empty : pyStrip ("") = "" :=
  rfl

/-! ### Claim theorems -/

/-- C1 (amended): for every table and request, when `select` succeeds the
subset is exactly the rows of the table, in original order, whose four
categorical fields each equal the corresponding *stripped* criterion
whenever that criterion is non-blank — exact string equality, no partial or
case-insensitive matching, predicates composed with AND. -/
theorem c1_filter_exact_trimmed_match {df : Df} {req : FilterRequest} {f : Df}
    (hok : apply_filter df req = .ok f) :
    f.cols = df.cols ∧
    f.rows = df.rows.filter (rowMatch df.cols req) ∧
    ∀ r ∈ f.rows,
      (pyStrip req.quarter ≠ "" →
        pyStr (colCell df.cols r ("Fiscal Quarter")) = pyStrip req.quarter) ∧
      (pyStrip req.month ≠ "" →
        pyStr (colCell df.cols r ("Fiscal Month")) = pyStrip req.month) ∧
      (pyStrip req.location ≠ "" →
        pyStr (colCell df.cols r ("Location")) = pyStrip req.location) ∧
      (pyStrip req.model ≠ "" →
        pyStr (colCell df.cols r ("Model Group")) = pyStrip req.model) := by
  obtain ⟨hreq, rfl⟩ := apply_filter_inv hok
  refine ⟨rfl, rfl, ?_⟩
  intro r hr
  have hm := (List.mem_filter.mp hr).2
  rw [rowMatch] at hm
  simp only [Bool.and_eq_true] at hm
  obtain ⟨⟨⟨h1, h2⟩, h3⟩, h4⟩ := hm
  exact ⟨fieldPred_eq h1, fieldPred_eq h2, fieldPred_eq h3, fieldPred_eq h4⟩

/-- C1 counterexample: with the non-blank criterion `" Q1 "` the selected
subset contains a row whose quarter field is `"Q1"`, which is not equal to
the criterion itself — equality holds only against the stripped
criterion. -/
theorem c1_untrimmed_criterion_cex :
    apply_filter fixDf reqQ1sp = .ok fixF1 ∧
    reqQ1sp.quarter ≠ "" ∧
    (fixF1.rows.getD 0 []) ∈ fixF1.rows ∧
    pyStr (colCell fixDf.cols (fixF1.rows.getD 0 []) ("Fiscal Quarter")) ≠ reqQ1sp.quarter := by
  decide

/-- C1 witness: the amended theorem at the two-row fixture with the padded
criterion `" Q1 "`. -/
theorem c1_filter_exact_trimmed_match_witness :
    fixF1.cols = fixDf.cols ∧
    fixF1.rows = fixDf.rows.filter (rowMatch fixDf.cols reqQ1sp) ∧
    ∀ r ∈ fixF1.rows,
      (pyStrip reqQ1sp.quarter ≠ "" →
        pyStr (colCell fixDf.cols r ("Fiscal Quarter")) = pyStrip reqQ1sp.quarter) ∧
      (pyStrip reqQ1sp.month ≠ "" →
        pyStr (colCell fixDf.cols r ("Fiscal Month")) = pyStrip reqQ1sp.month) ∧
      (pyStrip reqQ1sp.location ≠ "" →
        pyStr (colCell fixDf.cols r ("Location")) = pyStrip reqQ1sp.location) ∧
      (pyStrip reqQ1sp.model ≠ "" →
        pyStr (colCell fixDf.cols r ("Model Group")) = pyStrip reqQ1sp.model) :=
  c1_filter_exact_trimmed_match (by decide)

/-- C2: totals over the empty table and over every zero-row subset (any
column set) is the mapping carrying all eight numeric columns — the two
count columns as int `0`, the remaining six as float `0.0` — with no key
absent and no failure; the keys are exactly `NUMERIC_COLS`. -/
theorem c2_totals_empty_zero :
    (∀ cols : List String, compute_totals { cols := cols, rows := [] } = .ok ZERO_TOTALS) ∧
    ZERO_TOTALS.map Prod.fst = NUMERIC_COLS :=
  ⟨compute_totals_empty_rows, by decide⟩

/-- C7: an all-blank criteria set returns the full table unchanged, and
any successful filtering returns a subsequence of the original rows (never
reordered). -/
theorem c7_blank_returns_all (df : Df) (req : FilterRequest) :
    (pyStrip req.quarter = "" → pyStrip req.month = "" → pyStrip req.location = "" →
      pyStrip req.model = "" → apply_filter df req = .ok df) ∧
    ∀ f, apply_filter df req = .ok f → f.rows.Sublist df.rows := by
  constructor
  · intro h1 h2 h3 h4
    simp [apply_filter, guardStep, h1, h2, h3, h4, except_bind_ok]
  · intro f hf
    obtain ⟨_, rfl⟩ := apply_filter_inv hf
    exact List.filter_sublist _

/-- C7 witness: the identity on the two-row fixture for a criteria set of
empty and whitespace-only strings, and order preservation of a filtered
subset. -/
theorem c7_blank_returns_all_witness :
    apply_filter fixDf { quarter := "", month := " ", location := "", model := "\t" } = .ok fixDf ∧
    fixF1.rows.Sublist fixDf.rows :=
  ⟨(c7_blank_returns_all fixDf { quarter := "", month := " ", location := "", model := "\t" }).1
      (by decide) (by decide) (by decide) (by decide),
   (c7_blank_returns_all fixDf reqQ1sp).2 fixF1 (by decide)⟩

/-- C8 (amended): filtering never fails on any table carrying the four
required categorical columns (empty-row tables included), and aggregation
never fails on any table whose present numeric columns hold numeric cells;
on the column-less empty frame produced by a failed load, filtering with a
non-blank criterion raises `KeyError` (the endpoints guard that state with
the emptiness check). -/
theorem c8_filter_totals_total :
    (∀ (df : Df) (req : FilterRequest), hasRequiredColsB df = true →
      ∃ f, apply_filter df req = .ok f) ∧
    (∀ df : Df, numericOkB df = true → ∃ t, compute_totals df = .ok t) := by
  constructor
  · intro df req h
    have hmem : ∀ c ∈ REQUIRED_COLS, c ∈ df.cols := fun c hc =>
      contains_iff_mem.mp (List.all_eq_true.mp h c hc)
    exact ⟨_, apply_filter_ok ⟨fun _ => hmem ("Fiscal Quarter") (by decide),
      fun _ => hmem ("Fiscal Month") (by decide),
      fun _ => hmem ("Location") (by decide),
      fun _ => hmem ("Model Group") (by decide)⟩⟩
  · intro df h
    exact compute_totals_ok h

/-- C8 counterexample: on the column-less empty frame left by a failed
load, filtering with a non-blank quarter criterion raises `KeyError`
rather than returning a result, so filtering is not total on every table
state. -/
theorem c8_empty_frame_keyerror_cex :
    initState.df.pdEmpty = true ∧
    apply_filter initState.df { quarter := "Q1", month := "", location := "", model := "" } =
      .error ("KeyError: Fiscal Quarter") := by
  decide

/-- C8 witness: the amended theorem at the two-row fixture. -/
theorem c8_filter_totals_total_witness :
    (∃ f, apply_filter fixDf reqQ1sp = .ok f) ∧ (∃ t, compute_totals fixDf = .ok t) :=
  ⟨c8_filter_totals_total.1 fixDf reqQ1sp (by decide),
   c8_filter_totals_total.2 fixDf (by decide)⟩

/-- C9: criteria are stripped before use — filtering with any criteria
equals filtering with their stripped forms, and a whitespace-only
criterion imposes no constraint. -/
theorem c9_criteria_stripped (df : Df) (q m lo mo : String) :
    apply_filter df { quarter := q, month := m, location := lo, model := mo } =
      apply_filter df
        { quarter := pyStrip q, month := pyStrip m, location := pyStrip lo, model := pyStrip mo } ∧
    (pyStrip q = "" →
      apply_filter df { quarter := q, month := m, location := lo, model := mo } =
        apply_filter df { quarter := "", month := m, location := lo, model := mo }) := by
  constructor
  · simp only [apply_filter, pyStrip_idem]
  · intro hq
    simp only [apply_filter, hq, pyStrip_empty]

/-- C9 witness: the padded criterion `" Q1 "` selects like `"Q1"`, and a
whitespace-only criterion selects like a blank one, on the fixture. -/
theorem c9_criteria_stripped_witness :
    apply_filter fixDf { quarter := " Q1 ", month := "", location := "", model := "" } =
      apply_filter fixDf
        { quarter := pyStrip (" Q1 "), month := pyStrip (""), location := pyStrip (""),
          model := pyStrip ("") } ∧
    apply_filter fixDf { quarter := " ", month := "", location := "", model := "" } =
      apply_filter fixDf { quarter := "", month := "", location := "", model := "" } :=
  ⟨(c9_criteria_stripped fixDf (" Q1 ") ("") ("") ("")).1,
   (c9_criteria_stripped fixDf (" ") ("") ("") ("")).2 (by decide)⟩

/-- C10: `select` is idempotent — filtering an already-filtered subset with
the same criteria returns it unchanged (and a failed filtering fails
identically when repeated through `bind`). -/
theorem c10_select_idempotent (df : Df) (req : FilterRequest) :
    Except.bind (apply_filter df req) (fun f => apply_filter f req) = apply_filter df req := by
  cases hres : apply_filter df req with
  | error e => rw [except_bind_error]
  | ok f =>
    rw [except_bind_ok]
    obtain ⟨hreq, rfl⟩ := apply_filter_inv hres
    have hreq2 : reqColsOk { cols := df.cols, rows := df.rows.filter (rowMatch df.cols req) } req :=
      hreq
    rw [apply_filter_ok hreq2]
    simp only [List.filter_filter]
    congr 2
    exact List.filter_congr (fun r _ => by rw [Bool.and_self])

theorem optionList_props (vals : List String) (r : String → String → Prop)
    [DecidableRel r] [IsTotal String r] [IsTrans String r] :
    List.Sorted r (List.insertionSort r ((uniqueFirst vals).filter (fun x => x ≠ "nan"))) ∧
    (List.insertionSort r ((uniqueFirst vals).filter (fun x => x ≠ "nan"))).Nodup ∧
    ∀ x, (x ∈ List.insertionSort r ((uniqueFirst vals).filter (fun x => x ≠ "nan")) ↔
      x ∈ vals ∧ x ≠ "nan") := by
  refine ⟨List.sorted_insertionSort r _, ?_, ?_⟩
  · exact ((List.perm_insertionSort r _).nodup_iff).mpr
      ((nodup_uniqueFirst vals).filter _)
  · intro x
    rw [List.mem_insertionSort, List.mem_filter, mem_uniqueFirst]
    simp

/-- C3 (amended): each option list is the sorted deduplication of the
column's values with the literal string `"nan"` (the rendering of missing
cells) excluded — blank strings are not excluded; quarters, locations and
models sort in code-point order, months sort by the April-starting
financial-year rank with unknown labels last, and the spec's month example
loads to `["Apr", "Dec", "Jan", "Foo"]`. -/
theorem c3_options_characterized {raw : RawFile} {st : LoadedState}
    (hl : load_excel (some raw) = .ok st) :
    (List.Sorted pyStrLe st.quarters ∧ st.quarters.Nodup ∧
      ∀ x, (x ∈ st.quarters ↔ x ∈ colStr st.df ("Fiscal Quarter") ∧ x ≠ "nan")) ∧
    (List.Sorted monthLe st.months ∧ st.months.Nodup ∧
      ∀ x, (x ∈ st.months ↔ x ∈ colStr st.df ("Fiscal Month") ∧ x ≠ "nan")) ∧
    (List.Sorted pyStrLe st.locations ∧ st.locations.Nodup ∧
      ∀ x, (x ∈ st.locations ↔ x ∈ colStr st.df ("Location") ∧ x ≠ "nan")) ∧
    (List.Sorted pyStrLe st.models ∧ st.models.Nodup ∧
      ∀ x, (x ∈ st.models ↔ x ∈ colStr st.df ("Model Group") ∧ x ≠ "nan")) ∧
    (startup (some monthsRaw)).months = ["Apr", "Dec", "Jan", "Foo"] := by
  obtain ⟨_, hq, hm, hlo, hmo⟩ := load_excel_ok_inv hl
  refine ⟨?_, ?_, ?_, ?_, by decide⟩
  · rw [hq]
    exact optionList_props (colStr st.df ("Fiscal Quarter")) pyStrLe
  · rw [hm]
    exact optionList_props (colStr st.df ("Fiscal Month")) monthLe
  · rw [hlo]
    exact optionList_props (colStr st.df ("Location")) pyStrLe
  · rw [hmo]
    exact optionList_props (colStr st.df ("Model Group")) pyStrLe

/-- C3 counterexample: a table whose quarter cell is whitespace-only loads
to the blank string, and the quarters option list keeps that blank value —
it is not the sorted set of distinct *non-blank* values the claim
states. -/
theorem c3_blank_option_cex :
    (startup (some blankRaw)).quarters = [""] ∧
    (startup (some blankRaw)).quarters ≠
      specSortedNonBlank (colStr (startup (some blankRaw)).df ("Fiscal Quarter")) := by
  decide

/-- C3 witness: the amended theorem at the canonical two-row file. -/
theorem c3_options_characterized_witness :
    List.Sorted pyStrLe (startup (some fixRaw)).quarters ∧
    ∀ x, (x ∈ (startup (some fixRaw)).months ↔
      x ∈ colStr (startup (some fixRaw)).df ("Fiscal Month") ∧ x ≠ "nan") :=
  ⟨(@c3_options_characterized fixRaw (startup (some fixRaw)) (by decide)).1.1,
   (@c3_options_characterized fixRaw (startup (some fixRaw)) (by decide)).2.1.2.2⟩

/-- C4: when no source file exists, or the load fails on a missing required
column, the state is the empty one; on it the filter options are four empty
lists, `get_data` returns empty rows with all-zero totals and count 0 for
every criteria, and `export_excel` fails explicitly for every criteria. -/
theorem c4_load_failure_degrades (raw : RawFile) (req : FilterRequest) :
    startup none = initState ∧
    ((∃ e, load_excel (some raw) = .error e) → startup (some raw) = initState) ∧
    getFilterOptions initState = ([], [], [], []) ∧
    get_data initState req = .ok { data := [], totals := ZERO_TOTALS, count := 0 } ∧
    export_excel initState req = .error ("No data loaded") := by
  refine ⟨rfl, startup_of_load_error, rfl, ?_, rfl⟩
  have h1 : initState.df.pdEmpty = true := by decide
  rw [get_data, if_pos h1, compute_totals_empty_rows, except_bind_ok]

/-- C4 witness: a file missing the required `Location` column degrades to
the empty state, whose `get_data` and `export_excel` behave as claimed. -/
theorem c4_load_failure_degrades_witness :
    startup (some badRaw) = initState ∧
    get_data initState reqBlank = .ok { data := [], totals := ZERO_TOTALS, count := 0 } ∧
    export_excel initState reqBlank = .error ("No data loaded") :=
  ⟨(c4_load_failure_degrades badRaw reqBlank).2.1
      ⟨("Missing required column: Location"), by decide⟩,
   (c4_load_failure_degrades badRaw reqBlank).2.2.2.1,
   (c4_load_failure_degrades badRaw reqBlank).2.2.2.2⟩

/-- C5 (amended): a successful export writes the header row, one row per
subset record in order, and the totals row immediately after the last data
row (no blank row between); the totals row's `Fiscal Quarter` cell is the
literal `TOTAL`, its cells under present numeric columns carry the
corresponding totals, and every column width is the longest rendered cell
(header included) plus 2, capped at 50. -/
theorem c5_export_structure {st : LoadedState} {req : FilterRequest} {f : Df}
    {t : List (String × PyVal)}
    (hne : st.df.pdEmpty = false)
    (hf : apply_filter st.df req = .ok f)
    (ht : compute_totals f = .ok t) :
    export_excel st req =
      .ok { grid := exportGridOf f t, widths := colWidths (exportGridOf f t) } ∧
    (totalsRowDict f.cols t).lookup ("Fiscal Quarter") = some (PyVal.str ("TOTAL")) ∧
    (∀ c ∈ NUMERIC_COLS, c ∈ f.cols →
      (totalsRowDict f.cols t).lookup c = some ((t.lookup c).getD (PyVal.float 0))) ∧
    (∀ j, j < gridNCols (exportGridOf f t) →
      (colWidths (exportGridOf f t)).getD j 0 =
        Nat.min (maxRenderLen (exportGridOf f t) j + 2) 50) ∧
    (∀ w ∈ colWidths (exportGridOf f t), w ≤ 50) := by
  refine ⟨?_, totalsRowDict_lookup_quarter _ _,
    fun c hc hcc => totalsRowDict_lookup_numeric _ _ c hc hcc,
    fun j hj => colWidths_getD _ j hj, colWidths_le _⟩
  rw [export_excel_eq hne hf ht]
  rfl

/-- C5 counterexample: on the two-row fixture the exported sheet has four
rows — header, two data rows, then the totals row directly after — not the
five-row layout with a blank row before the totals that the claim
states. -/
theorem c5_no_blank_row_cex :
    export_excel fixState reqBlank =
      .ok { grid := exportGridOf fixDf fixT, widths := colWidths (exportGridOf fixDf fixT) } ∧
    (exportGridOf fixDf fixT).length = 4 ∧
    (specSheetLayout fixDf fixT).length = 5 ∧
    exportGridOf fixDf fixT ≠ specSheetLayout fixDf fixT := by
  decide

/-- C5 witness: the amended theorem at the two-row fixture with blank
criteria. -/
theorem c5_export_structure_witness :
    export_excel fixState reqBlank =
      .ok { grid := exportGridOf fixDf fixT, widths := colWidths (exportGridOf fixDf fixT) } ∧
    (totalsRowDict fixDf.cols fixT).lookup ("Fiscal Quarter") = some (PyVal.str ("TOTAL")) ∧
    (∀ c ∈ NUMERIC_COLS, c ∈ fixDf.cols →
      (totalsRowDict fixDf.cols fixT).lookup c = some ((fixT.lookup c).getD (PyVal.float 0))) ∧
    (∀ j, j < gridNCols (exportGridOf fixDf fixT) →
      (colWidths (exportGridOf fixDf fixT)).getD j 0 =
        Nat.min (maxRenderLen (exportGridOf fixDf fixT) j + 2) 50) ∧
    (∀ w ∈ colWidths (exportGridOf fixDf fixT), w ≤ 50) :=
  @c5_export_structure fixState reqBlank fixDf fixT (by decide) (by decide) (by decide)

/-- C6 (amended): `get_data` serializes each record with keys in the loaded
table's column order — the source file's header order after normalization
(first occurrence, duplicates collapsed) — and the data sheet written by
`export_excel` carries its header row (and hence its column layout) in
that same table order; neither uses a fixed canonical order. -/
theorem c6_projection_source_order {raw : RawFile} {st : LoadedState} {req : FilterRequest}
    {r : GetDataResult}
    (hl : load_excel (some raw) = .ok st) (hg : get_data st req = .ok r) :
    st.df.cols = raw.headers.map (fun c => renameCanon (clean_col_name c)) ∧
    (∀ rec ∈ r.data, rec.map Prod.fst = uniqueFirst st.df.cols) ∧
    ∀ res, export_excel st req = .ok res → res.grid.head? = some (headerRow st.df.cols) := by
  refine ⟨(load_excel_ok_inv hl).1, ?_, ?_⟩
  · intro rec hrec
    by_cases hE : st.df.pdEmpty = true
    · rw [get_data, if_pos hE, compute_totals_empty_rows, except_bind_ok] at hg
      have hr := (Except.ok.injEq _ _).mp hg
      subst hr
      simp at hrec
    · rw [Bool.not_eq_true] at hE
      cases happ : apply_filter st.df req with
      | error e =>
        rw [get_data, if_neg (by simp [hE]), happ, except_bind_error] at hg
        cases hg
      | ok f =>
        cases hct : compute_totals f with
        | error e =>
          rw [get_data, if_neg (by simp [hE]), happ, except_bind_ok, hct,
            except_bind_error] at hg
          cases hg
        | ok t =>
          rw [get_data, if_neg (by simp [hE]), happ, except_bind_ok, hct,
            except_bind_ok] at hg
          have hr := (Except.ok.injEq _ _).mp hg
          subst hr
          simp only [toRecords] at hrec
          obtain ⟨row, _, rfl⟩ := List.mem_map.mp hrec
          rw [rowRecord_keys]
          have hcols : f.cols = st.df.cols := by
            obtain ⟨_, rfl⟩ := apply_filter_inv happ
            rfl
          rw [hcols]
  · intro res hres
    by_cases hE : st.df.pdEmpty = true
    · rw [export_excel, if_pos hE] at hres
      cases hres
    · rw [Bool.not_eq_true] at hE
      cases happ : apply_filter st.df req with
      | error e =>
        rw [export_excel, if_neg (by simp [hE]), happ, except_bind_error] at hres
        cases hres
      | ok f =>
        cases hct : compute_totals f with
        | error e =>
          rw [export_excel, if_neg (by simp [hE]), happ, except_bind_ok, hct,
            except_bind_error] at hres
          cases hres
        | ok t =>
          rw [export_excel_eq hE happ hct] at hres
          have hr := (Except.ok.injEq _ _).mp hres
          subst hr
          have hcols : f.cols = st.df.cols := by
            obtain ⟨_, rfl⟩ := apply_filter_inv happ
            rfl
          simp [exportGridOf, hcols]

/-- C6 counterexample: a loadable file with the `Location` column first
yields `get_data` records whose key order is that file's order, and an
exported sheet whose header row lists the columns in that same order —
not the claimed fixed order (quarter, month, location, model, then the
numeric columns). -/
theorem c6_fixed_order_cex :
    Except.map (fun r => r.data.map (fun rec => rec.map Prod.fst))
      (get_data (startup (some permRaw)) reqBlank) = .ok [permCols] ∧
    Except.map (fun res => res.grid.head?) (export_excel (startup (some permRaw)) reqBlank) =
      .ok (some (headerRow permCols)) ∧
    permCols ≠ FIXED_COLS ∧
    headerRow permCols ≠ headerRow FIXED_COLS := by
  decide

/-- C6 witness: the amended theorem at the canonical two-row file, whose
record keys and exported header row follow the file's header order. -/
theorem c6_projection_source_order_witness :
    (startup (some fixRaw)).df.cols =
      fixRaw.headers.map (fun c => renameCanon (clean_col_name c)) ∧
    (∀ rec ∈ (toRecords fixDf), rec.map Prod.fst = uniqueFirst (startup (some fixRaw)).df.cols) ∧
    ({ grid := exportGridOf fixDf fixT, widths := colWidths (exportGridOf fixDf fixT) } :
        ExportResult).grid.head? = some (headerRow (startup (some fixRaw)).df.cols) :=
  ⟨(@c6_projection_source_order fixRaw (startup (some fixRaw)) reqBlank
      { data := toRecords fixDf, totals := fixT, count := 2 } (by decide) (by decide)).1,
   (@c6_projection_source_order fixRaw (startup (some fixRaw)) reqBlank
      { data := toRecords fixDf, totals := fixT, count := 2 } (by decide) (by decide)).2.1,
   (@c6_projection_source_order fixRaw (startup (some fixRaw)) reqBlank
      { data := toRecords fixDf, totals := fixT, count := 2 } (by decide) (by decide)).2.2
      { grid := exportGridOf fixDf fixT, widths := colWidths (exportGridOf fixDf fixT) }
      (by decide)⟩
